import Mathlib

/-!
Verification of the summary-statistics module (gnomad/assessment/summary_stats.py).

The module builds lazy Hail expressions; we embed the expression semantics
shallowly.  Hail values that may be null are modelled as `Option`; Hail
boolean connectives follow Kleene three-valued logic; `hl.case` builders are
modelled by the conditional chains below.  Machine floats are modelled as `ℚ`
(all constants in the source are decimal literals), Hail int32/int64 as `ℤ`
or `ℕ`, and aggregations over a table as functions over a `List` of records.
Hail library functions (`hl.is_indel`, `hl.is_snp`, locus class predicates)
and collaborator functions from other modules are external to this file's
source; their per-record results appear as record fields or function
parameters, as noted at each definition.
-/

/-- Kleene conjunction: the semantics of the Hail `&` operator on two
possibly-missing booleans. -/
def hlAnd : Option Bool → Option Bool → Option Bool
  | some false, _ => some false
  | _, some false => some false
  | some true, some true => some true
  | _, _ => none

/-- Semantics of a Hail `==` comparison between a possibly-missing string and
a literal: a missing operand gives a missing result. -/
def hlEqStr (x : Option String) (s : String) : Option Bool :=
  x.map (fun v => v == s)

/-- Semantics of `missing_false=True` on a case-builder condition: a missing
condition is treated as false. -/
def missingFalse : Option Bool → Bool
  | some b => b
  | none => false

/-- One element of the `freq` array: a struct of allele count, allele number
and allele frequency, each field possibly missing. -/
structure FreqStruct where
  AC : Option ℤ
  AN : Option ℤ
  AF : Option ℚ
deriving DecidableEq

/-- Array indexing `freq_expr[index]` composed with struct missingness: the
element itself may be a missing struct. -/
def freqAt (freq : List (Option FreqStruct)) (index : ℕ) : Option FreqStruct :=
  (freq[index]?).join

/-- The AC field selected by `freq_expr[index].AC`. -/
def acAt (freq : List (Option FreqStruct)) (index : ℕ) : Option ℤ :=
  (freqAt freq index).bind FreqStruct.AC

/-- The AF field selected by `freq_expr[index].AF`. -/
def afAt (freq : List (Option FreqStruct)) (index : ℕ) : Option ℚ :=
  (freqAt freq index).bind FreqStruct.AF

/-- The AN field selected by `freq_expr[index].AN`. -/
def anAt (freq : List (Option FreqStruct)) (index : ℕ) : Option ℤ :=
  (freqAt freq index).bind FreqStruct.AN

/-- The ten frequency-bin labels produced by `freq_bin_expr`, in rule order. -/
def binLabels : List String :=
  ["Not found", "Singleton", "Doubleton", "AC 3 - 5", "AC 6 - 0.01%",
   "0.01% - 0.1%", "0.1% - 1%", "1% - 10%", ">95%", "10% - 95%"]

/-- Embedding of `freq_bin_expr` (summary_stats.py lines 33-45): an
`hl.case(missing_false=True)` chain over `freq_expr[index].AC` and
`freq_expr[index].AF`, ending in `.default("10% - 95%")`.  With
`missing_false=True` every condition is coerced to a defined boolean, so the
result is always a defined string. -/
def freq_bin_expr (freq : List (Option FreqStruct)) (index : ℕ) : String :=
  if missingFalse ((acAt freq index).map (fun a => decide (a = 0))) then ("Not found")
  else if missingFalse ((acAt freq index).map (fun a => decide (a = 1))) then ("Singleton")
  else if missingFalse ((acAt freq index).map (fun a => decide (a = 2))) then ("Doubleton")
  else if missingFalse ((acAt freq index).map (fun a => decide (a ≤ 5))) then ("AC 3 - 5")
  else if missingFalse ((afAt freq index).map (fun q => decide (q < 0.0001))) then ("AC 6 - 0.01%")
  else if missingFalse ((afAt freq index).map (fun q => decide (q < 0.001))) then ("0.01% - 0.1%")
  else if missingFalse ((afAt freq index).map (fun q => decide (q < 0.01))) then ("0.1% - 1%")
  else if missingFalse ((afAt freq index).map (fun q => decide (q < 0.1))) then ("1% - 10%")
  else if missingFalse ((afAt freq index).map (fun q => decide (q > 0.95))) then (">95%")
  else ("10% - 95%")

theorem acAt_singleton (f : FreqStruct) : acAt [some f] 0 = f.AC := rfl

theorem afAt_singleton (f : FreqStruct) : afAt [some f] 0 = f.AF := rfl

/-- Evaluation of the binner on a record whose AC and AF are both defined:
the case chain becomes a chain of ordinary conditionals. -/
theorem freq_bin_expr_def_fields (ac : ℤ) (an : Option ℤ) (af : ℚ) :
    freq_bin_expr [some ⟨some ac, an, some af⟩] 0 =
      if ac = 0 then ("Not found")
      else if ac = 1 then ("Singleton")
      else if ac = 2 then ("Doubleton")
      else if ac ≤ 5 then ("AC 3 - 5")
      else if af < 0.0001 then ("AC 6 - 0.01%")
      else if af < 0.001 then ("0.01% - 0.1%")
      else if af < 0.01 then ("0.1% - 1%")
      else if af < 0.1 then ("1% - 10%")
      else if af > 0.95 then (">95%")
      else ("10% - 95%") := by
  simp only [freq_bin_expr, acAt_singleton, afAt_singleton, Option.map_some',
    missingFalse, decide_eq_true_eq]

/-- Claim C1: for every frequency record with a defined non-negative integer
AC and defined AF, the binner returns exactly one of the ten bin labels (the
label list has no duplicates, so membership picks out exactly one), and the
four quoted examples evaluate as stated, with the AC rules taking priority
over the AF rules. -/
theorem freq_bin_expr_total_and_examples :
    (∀ ac : ℤ, ∀ af : ℚ, 0 ≤ ac →
      freq_bin_expr [some ⟨some ac, none, some af⟩] 0 ∈ binLabels) ∧
    binLabels.Nodup ∧
    freq_bin_expr [some ⟨some 0, none, some 0⟩] 0 = "Not found" ∧
    freq_bin_expr [some ⟨some 1, none, some 0.000001⟩] 0 = "Singleton" ∧
    freq_bin_expr [some ⟨some 10, none, some 0.005⟩] 0 = "0.1% - 1%" ∧
    freq_bin_expr [some ⟨some 10, none, some 0.96⟩] 0 = ">95%" := by
  refine ⟨?_, by decide, ?_, ?_, ?_, ?_⟩
  · intro ac af _
    rw [freq_bin_expr_def_fields]
    split_ifs <;> decide
  · rw [freq_bin_expr_def_fields]; norm_num
  · rw [freq_bin_expr_def_fields]; norm_num
  · rw [freq_bin_expr_def_fields]; norm_num
  · rw [freq_bin_expr_def_fields]; norm_num

/-- Witness for C1: the totality part applied at AC = 5, AF = 1/5. -/
theorem freq_bin_expr_total_witness :
    freq_bin_expr [some ⟨some 5, none, some (1/5)⟩] 0 ∈ binLabels :=
  freq_bin_expr_total_and_examples.1 5 (1/5) (by decide)

/-- Locus classification as used by `get_an_adj_criteria`: the three Hail
locus predicates `in_autosome_or_par`, `in_x_nonpar`, `in_y_nonpar` are
mutually exclusive, and `other` covers every locus matching none of them. -/
inductive LocusClass
  | autosome_or_par
  | x_nonpar
  | y_nonpar
  | other
deriving DecidableEq

/-- Python dictionary subscript `d[k]` on a counter dictionary, as a partial
lookup (an association list stands in for the dict). -/
def lookupKey (m : List (String × ℕ)) (k : String) : Option ℕ :=
  (m.find? (fun kv => kv.1 == k)).map Prod.snd

/-- Python `sum(d.values())`. -/
def dictSumValues (m : List (String × ℕ)) : ℕ :=
  (m.map Prod.snd).sum

/-- `hl.agg.counter` over the per-sample sex strings: one key per distinct
value, mapped to its number of occurrences. -/
def hlAggCounter (xs : List String) : List (String × ℕ) :=
  xs.dedup.map (fun k => (k, xs.count k))

/-- The mapping actually used by `get_an_adj_criteria`: the caller-supplied
`samples_by_sex` if present, otherwise the counter aggregation over the
sample metadata column (summary_stats.py lines 184-185). -/
def effective_samples_by_sex (cols : List String)
    (samples_by_sex : Option (List (String × ℕ))) : List (String × ℕ) :=
  match samples_by_sex with
  | some m => m
  | none => hlAggCounter cols

/-- Embedding of `get_an_adj_criteria` (summary_stats.py lines 158-205).
The Python function evaluates `samples_by_sex[xy_str]` and
`samples_by_sex[xx_str]` eagerly while constructing the case expression, so a
missing key raises `KeyError` before any per-locus dispatch happens; this is
the `Except.error` branch.  On success the result is the per-variant
expression: an `hl.case()` (without `missing_false`) over the locus class,
comparing `freq[freq_index].AN` against the cutoff fraction of the expected
maximum AN, ending in `.or_missing()`.  A missing AN makes the selected
branch missing. -/
def get_an_adj_criteria (cols : List String)
    (samples_by_sex : Option (List (String × ℕ)))
    (xy_str xx_str : String) (freq_index : ℕ) (an_proportion_cutoff : ℚ) :
    Except String (LocusClass → List (Option FreqStruct) → Option Bool) :=
  match lookupKey (effective_samples_by_sex cols samples_by_sex) xy_str,
        lookupKey (effective_samples_by_sex cols samples_by_sex) xx_str with
  | some n_xy, some n_xx =>
      Except.ok (fun cls freq =>
        match cls with
        | LocusClass.autosome_or_par =>
            (anAt freq freq_index).map (fun a =>
              decide (an_proportion_cutoff * 2 *
                ((dictSumValues (effective_samples_by_sex cols samples_by_sex)) : ℚ)
                  ≤ (a : ℚ)))
        | LocusClass.x_nonpar =>
            (anAt freq freq_index).map (fun a =>
              decide (an_proportion_cutoff * ((n_xy : ℚ) + (n_xx : ℚ) * 2) ≤ (a : ℚ)))
        | LocusClass.y_nonpar =>
            (anAt freq freq_index).map (fun a =>
              decide (an_proportion_cutoff * (n_xy : ℚ) ≤ (a : ℚ)))
        | LocusClass.other => none)
  | _, _ => Except.error ("KeyError")

/-- Evaluation of the AN-adjacency criterion at one locus class and one freq
array, keeping the possibility that construction already raised. -/
def an_adj_eval (cols : List String) (samples_by_sex : Option (List (String × ℕ)))
    (xy_str xx_str : String) (freq_index : ℕ) (cutoff : ℚ)
    (cls : LocusClass) (freq : List (Option FreqStruct)) : Except String (Option Bool) :=
  (get_an_adj_criteria cols samples_by_sex xy_str xx_str freq_index cutoff).map
    (fun f => f cls freq)

/-- Claim C2 counterexample: on missing inputs (a missing selected struct, or
a struct with missing AC and AF) the binner does not return a missing result;
the `missing_false` case falls through every rule and `.default` returns the
bin label "10% - 95%", one of the ten labels. -/
theorem freq_bin_expr_missing_counterexample :
    freq_bin_expr [none] 0 = "10% - 95%" ∧
    freq_bin_expr [some ⟨none, none, none⟩] 0 = "10% - 95%" ∧
    "10% - 95%" ∈ binLabels :=
  ⟨rfl, rfl, by decide⟩

/-- Claim C2 (amended): when the selected frequency struct or both its AC and
AF are missing, every rule condition is treated as false (`missing_false`
semantics) and the binner returns the default label "10% - 95%" — a defined
label, never a missing result — and never raises; a missing AN in the
frequency field propagates to a missing result of the AN-adjacency
criterion. -/
theorem freq_bin_expr_missing_default_and_an_missing :
    freq_bin_expr [none] 0 = "10% - 95%" ∧
    freq_bin_expr [some ⟨none, none, none⟩] 0 = "10% - 95%" ∧
    (∀ cols sbs xy xx fi cutoff cls freq, anAt freq fi = none →
      ∀ r, an_adj_eval cols sbs xy xx fi cutoff cls freq = Except.ok r → r = none) := by
  refine ⟨rfl, rfl, ?_⟩
  intro cols sbs xy xx fi cutoff cls freq han r hr
  unfold an_adj_eval get_an_adj_criteria at hr
  rcases hxy : lookupKey (effective_samples_by_sex cols sbs) xy with _ | nxy <;>
    rw [hxy] at hr
  · simp [Except.map] at hr
  · rcases hxx : lookupKey (effective_samples_by_sex cols sbs) xx with _ | nxx <;>
      rw [hxx] at hr
    · simp [Except.map] at hr
    · cases cls <;> simp [Except.map, han] at hr <;> exact hr.symm

/-- Witness for the amended C2: concrete evaluation with a present mapping, a
missing AN and an autosomal locus. -/
theorem freq_bin_expr_missing_default_witness :
    (none : Option Bool) = none ∧ freq_bin_expr [none] 0 = "10% - 95%" :=
  ⟨freq_bin_expr_missing_default_and_an_missing.2.2 [] (some [("XY", 1), ("XX", 1)])
      "XY" "XX" 0 (4/5) LocusClass.autosome_or_par [none] rfl none rfl,
   freq_bin_expr_missing_default_and_an_missing.1⟩

/-- A variant row as consumed by the summary-counts pipeline and the gene
LoF matrix builder.  `isIndel`/`isSnp` hold the results of the external Hail
classifiers `hl.is_indel(alleles[0], alleles[1])` and `hl.is_snp(...)` on the
row's allele pair; `lof` and `no_lof_flags` are the LOFTEE annotations. -/
structure VariantRecord where
  filters : List String
  freq : List (Option FreqStruct)
  isIndel : Bool
  isSnp : Bool
  lof : Option String
  no_lof_flags : Option Bool
deriving DecidableEq

/-- `hl.agg.count_where`: number of records whose (possibly missing) predicate
evaluates to a defined true; a missing predicate value does not count. -/
def count_where (p : VariantRecord → Option Bool) (l : List VariantRecord) : ℕ :=
  l.countP (fun r => decide (p r = some true))

/-- The eight category counts returned by `get_summary_counts_dict`.  The
`prefix_str` parameter of the source only prefixes the dictionary keys, so it
is represented by where the struct is stored, not inside the struct. -/
structure SummaryCounts where
  num_variants : ℕ
  indels : ℕ
  snps : ℕ
  LOF : ℕ
  pass_loftee : ℕ
  pass_loftee_no_flag : ℕ
  loftee_os : ℕ
  fail_loftee : ℕ
deriving DecidableEq

/-- Embedding of `get_summary_counts_dict` (summary_stats.py lines 48-92):
the grouped aggregation producing the eight category counts. -/
def get_summary_counts_dict (l : List VariantRecord) : SummaryCounts where
  num_variants := l.length
  indels := count_where (fun r => some r.isIndel) l
  snps := count_where (fun r => some r.isSnp) l
  LOF := count_where (fun r => some r.lof.isSome) l
  pass_loftee := count_where (fun r => hlEqStr r.lof ("HC")) l
  pass_loftee_no_flag := count_where (fun r => hlAnd (hlEqStr r.lof ("HC")) r.no_lof_flags) l
  loftee_os := count_where (fun r => hlEqStr r.lof ("OS")) l
  fail_loftee := count_where (fun r => hlEqStr r.lof ("LC")) l

/-- Claim C6: every category count is a non-negative integer, and whenever
each record's allele pair is classifiable as exactly one of indel or SNV, the
total record count equals the indel count plus the SNV count. -/
theorem get_summary_counts_dict_sums (l : List VariantRecord) :
    (0 ≤ (get_summary_counts_dict l).num_variants ∧
     0 ≤ (get_summary_counts_dict l).indels ∧
     0 ≤ (get_summary_counts_dict l).snps ∧
     0 ≤ (get_summary_counts_dict l).LOF ∧
     0 ≤ (get_summary_counts_dict l).pass_loftee ∧
     0 ≤ (get_summary_counts_dict l).pass_loftee_no_flag ∧
     0 ≤ (get_summary_counts_dict l).loftee_os ∧
     0 ≤ (get_summary_counts_dict l).fail_loftee) ∧
    ((∀ r ∈ l, r.isIndel ≠ r.isSnp) →
      (get_summary_counts_dict l).num_variants =
        (get_summary_counts_dict l).indels + (get_summary_counts_dict l).snps) := by
  constructor
  · exact ⟨Nat.zero_le _, Nat.zero_le _, Nat.zero_le _, Nat.zero_le _,
      Nat.zero_le _, Nat.zero_le _, Nat.zero_le _, Nat.zero_le _⟩
  · intro h
    simp only [get_summary_counts_dict, count_where]
    induction l with
    | nil => rfl
    | cons r l ih =>
      have hr : r.isIndel ≠ r.isSnp := h r (List.mem_cons_self r l)
      have hl' : ∀ x ∈ l, x.isIndel ≠ x.isSnp := fun x hx => h x (List.mem_cons_of_mem r hx)
      simp only [List.length_cons, List.countP_cons, ih hl']
      obtain ⟨fs, fq, bi, bs, lo, nf⟩ := r
      cases bi <;> cases bs <;> simp_all <;> omega

/-- Witness for C6: a two-record table, one indel and one SNV. -/
theorem get_summary_counts_dict_sums_witness :
    (get_summary_counts_dict
        [⟨[], [], true, false, some ("HC"), some true⟩,
         ⟨[], [], false, true, none, none⟩]).num_variants =
      (get_summary_counts_dict
        [⟨[], [], true, false, some ("HC"), some true⟩,
         ⟨[], [], false, true, none, none⟩]).indels +
      (get_summary_counts_dict
        [⟨[], [], true, false, some ("HC"), some true⟩,
         ⟨[], [], false, true, none, none⟩]).snps :=
  (get_summary_counts_dict_sums _).2 (by decide)

theorem sum_map_add_distrib {β : Type} (f g : β → ℕ) (L : List β) :
    (L.map (fun b => f b + g b)).sum = (L.map f).sum + (L.map g).sum := by
  induction L with
  | nil => rfl
  | cons x L ih =>
    simp only [List.map_cons, List.sum_cons, ih]
    ring

theorem sum_map_ite_not_mem {β : Type} [DecidableEq β] (c : ℕ) (a : β) (L : List β)
    (ha : a ∉ L) : (L.map (fun b => if a = b then c else 0)).sum = 0 := by
  induction L with
  | nil => rfl
  | cons x L ih =>
    rw [List.mem_cons, not_or] at ha
    simp only [List.map_cons, List.sum_cons, if_neg ha.1, ih ha.2]

theorem sum_map_ite_mem {β : Type} [DecidableEq β] (c : ℕ) (a : β) (L : List β)
    (hnd : L.Nodup) (ha : a ∈ L) : (L.map (fun b => if a = b then c else 0)).sum = c := by
  induction L with
  | nil => cases ha
  | cons x L ih =>
    rw [List.nodup_cons] at hnd
    rcases List.mem_cons.mp ha with h | h
    · subst h
      simp [sum_map_ite_not_mem c a L hnd.1]
    · have hax : a ≠ x := fun e => hnd.1 (e ▸ h)
      simp only [List.map_cons, List.sum_cons, if_neg hax, ih hnd.2 h, Nat.zero_add]

/-- Partition identity: counting records satisfying `p` bucket-by-bucket over
the observed keys and summing recovers the global count. -/
theorem countP_partition {α β : Type} [DecidableEq β] (key : α → β) (p : α → Bool)
    (l : List α) :
    (((l.map key).dedup).map
        (fun b => l.countP (fun r => p r && decide (key r = b)))).sum
      = l.countP p := by
  induction l with
  | nil => rfl
  | cons a l ih =>
    have hsplit : ∀ b : β, (a :: l).countP (fun r => p r && decide (key r = b)) =
        l.countP (fun r => p r && decide (key r = b)) +
          (if key a = b then (if p a then 1 else 0) else 0) := by
      intro b
      rw [List.countP_cons]
      by_cases h1 : p a <;> by_cases h2 : key a = b <;> simp [h1, h2]
    rw [List.countP_cons, List.map_cons]
    by_cases hmem : key a ∈ l.map key
    · rw [List.dedup_cons_of_mem hmem,
        List.map_congr_left (fun b _ => hsplit b), sum_map_add_distrib, ih,
        sum_map_ite_mem _ _ _ (List.nodup_dedup _) (List.mem_dedup.mpr hmem)]
    · rw [List.dedup_cons_of_not_mem hmem, List.map_cons, List.sum_cons, hsplit,
        List.map_congr_left (fun b _ => hsplit b), sum_map_add_distrib,
        sum_map_ite_not_mem _ _ _ (fun hc => hmem (List.mem_dedup.mp hc)), ih]
      have hzero : l.countP (fun r => p r && decide (key r = key a)) = 0 := by
        rw [List.countP_eq_zero]
        intro r hr
        have hne : key r ≠ key a := by
          intro e
          exact hmem (e ▸ List.mem_map_of_mem key hr)
        simp [hne]
      rw [hzero, if_pos (rfl : key a = key a)]
      omega

/-- The per-record frequency bin attached by `get_summary_counts` at line 142:
`freq_bin_expr(ht[freq_field])` with the default index 0. -/
def freq_bin_of (r : VariantRecord) : String :=
  freq_bin_expr r.freq 0

/-- Row filtering of `get_summary_counts` (lines 131-139): the explicit PASS
filter `hl.len(ht[filter_field]) == 0`, then the opaque collaborator
`filter_low_conf_regions` as a row predicate parameter.  The two remaining
collaborators (`filter_vep_to_canonical_transcripts`,
`get_most_severe_consequence_for_summary`) only rewrite VEP annotations and
change neither the row set nor any counted field. -/
def summary_pipeline_rows (lowConfKeep : VariantRecord → Bool)
    (l : List VariantRecord) : List VariantRecord :=
  (l.filter (fun r => decide (r.filters.length = 0))).filter lowConfKeep

/-- The frequency bins that actually occur among the filtered rows: grouping
produces exactly one output row per observed bin. -/
def observed_bins (rows : List VariantRecord) : List String :=
  (rows.map freq_bin_of).dedup

/-- The rows falling in one frequency-bin group. -/
def per_bin_rows (rows : List VariantRecord) (b : String) : List VariantRecord :=
  rows.filter (fun r => decide (freq_bin_of r = b))

/-- Output shape of `get_summary_counts`: global totals (annotated onto the
table globals, carrying the `total_` name prefix) plus one row per observed
frequency bin with unprefixed per-bin counts. -/
structure SummaryCountsTable where
  summary_counts : SummaryCounts
  rows : List (String × SummaryCounts)
deriving DecidableEq

/-- Embedding of `get_summary_counts` (summary_stats.py lines 95-155): after
filtering, the global totals and the per-bin group counts are aggregated from
the same table `ht`. -/
def get_summary_counts (lowConfKeep : VariantRecord → Bool)
    (l : List VariantRecord) : SummaryCountsTable :=
  { summary_counts := get_summary_counts_dict (summary_pipeline_rows lowConfKeep l)
  , rows := (observed_bins (summary_pipeline_rows lowConfKeep l)).map
      (fun b => (b, get_summary_counts_dict
        (per_bin_rows (summary_pipeline_rows lowConfKeep l) b))) }

theorem per_bin_count_where_sum (q : VariantRecord → Option Bool)
    (rows : List VariantRecord) :
    ((observed_bins rows).map (fun b => count_where q (per_bin_rows rows b))).sum
      = count_where q rows := by
  unfold count_where per_bin_rows observed_bins
  have h : (fun b => (rows.filter (fun r => decide (freq_bin_of r = b))).countP
        (fun r => decide (q r = some true))) =
      (fun b => rows.countP
        (fun r => decide (q r = some true) && decide (freq_bin_of r = b))) := by
    funext b
    rw [List.countP_filter]
  rw [h]
  exact countP_partition freq_bin_of (fun r => decide (q r = some true)) rows

theorem per_bin_length_sum (rows : List VariantRecord) :
    ((observed_bins rows).map (fun b => (per_bin_rows rows b).length)).sum
      = rows.length := by
  unfold per_bin_rows observed_bins
  have h : (fun b => (rows.filter (fun r => decide (freq_bin_of r = b))).length) =
      (fun b => rows.countP
        (fun r => (fun _ => true) r && decide (freq_bin_of r = b))) := by
    funext b
    rw [← List.countP_eq_length_filter]
    exact List.countP_congr (fun x _ => by simp)
  rw [h, countP_partition freq_bin_of (fun _ => true) rows]
  simp [List.countP_true]

/-- Claim C4: for every input table and every count category, the global
total stored in the table metadata (the `total_`-prefixed counts) equals the
sum of that category's per-bin counts over the frequency-bin rows of the
output table; both are aggregated over the same post-filtering rows. -/
theorem get_summary_counts_totals (lowConfKeep : VariantRecord → Bool)
    (l : List VariantRecord) :
    ((get_summary_counts lowConfKeep l).rows.map (fun br => br.2.num_variants)).sum
        = (get_summary_counts lowConfKeep l).summary_counts.num_variants ∧
    ((get_summary_counts lowConfKeep l).rows.map (fun br => br.2.indels)).sum
        = (get_summary_counts lowConfKeep l).summary_counts.indels ∧
    ((get_summary_counts lowConfKeep l).rows.map (fun br => br.2.snps)).sum
        = (get_summary_counts lowConfKeep l).summary_counts.snps ∧
    ((get_summary_counts lowConfKeep l).rows.map (fun br => br.2.LOF)).sum
        = (get_summary_counts lowConfKeep l).summary_counts.LOF ∧
    ((get_summary_counts lowConfKeep l).rows.map (fun br => br.2.pass_loftee)).sum
        = (get_summary_counts lowConfKeep l).summary_counts.pass_loftee ∧
    ((get_summary_counts lowConfKeep l).rows.map (fun br => br.2.pass_loftee_no_flag)).sum
        = (get_summary_counts lowConfKeep l).summary_counts.pass_loftee_no_flag ∧
    ((get_summary_counts lowConfKeep l).rows.map (fun br => br.2.loftee_os)).sum
        = (get_summary_counts lowConfKeep l).summary_counts.loftee_os ∧
    ((get_summary_counts lowConfKeep l).rows.map (fun br => br.2.fail_loftee)).sum
        = (get_summary_counts lowConfKeep l).summary_counts.fail_loftee := by
  simp only [get_summary_counts, List.map_map, Function.comp_def,
    get_summary_counts_dict]
  exact ⟨per_bin_length_sum _, per_bin_count_where_sum _ _, per_bin_count_where_sum _ _,
    per_bin_count_where_sum _ _, per_bin_count_where_sum _ _, per_bin_count_where_sum _ _,
    per_bin_count_where_sum _ _, per_bin_count_where_sum _ _⟩

/-- Claim C5: with both sex keys present in the mapping, the criterion at a
variant with defined AN is the comparison of AN against the cutoff times the
expected maximum for the locus class — 2 × (total sample count) for
autosomal/PAR, (#XY + 2 × #XX) for X non-PAR, #XY for Y non-PAR — and is
missing for any other locus class. -/
theorem get_an_adj_criteria_spec (cols : List String) (sbs : List (String × ℕ))
    (xy xx : String) (fi : ℕ) (cutoff : ℚ) (n_xy n_xx : ℕ) (an : ℤ)
    (freq freqO : List (Option FreqStruct))
    (hxy : lookupKey sbs xy = some n_xy) (hxx : lookupKey sbs xx = some n_xx)
    (han : anAt freq fi = some an) :
    an_adj_eval cols (some sbs) xy xx fi cutoff LocusClass.autosome_or_par freq
        = Except.ok (some (decide (cutoff * 2 * ((dictSumValues sbs) : ℚ) ≤ (an : ℚ)))) ∧
    an_adj_eval cols (some sbs) xy xx fi cutoff LocusClass.x_nonpar freq
        = Except.ok (some (decide (cutoff * ((n_xy : ℚ) + (n_xx : ℚ) * 2) ≤ (an : ℚ)))) ∧
    an_adj_eval cols (some sbs) xy xx fi cutoff LocusClass.y_nonpar freq
        = Except.ok (some (decide (cutoff * (n_xy : ℚ) ≤ (an : ℚ)))) ∧
    an_adj_eval cols (some sbs) xy xx fi cutoff LocusClass.other freqO
        = Except.ok none := by
  have heff : effective_samples_by_sex cols (some sbs) = sbs := rfl
  unfold an_adj_eval get_an_adj_criteria
  rw [heff, hxy, hxx]
  refine ⟨?_, ?_, ?_, rfl⟩ <;> simp [Except.map, han]

/-- Witness for C5: a concrete mapping with 2 XY and 3 XX samples, cutoff
4/5, AN = 2 at a Y non-PAR locus, and a missing result at an `other` locus. -/
theorem get_an_adj_criteria_spec_witness :
    (an_adj_eval [] (some [("XY", 2), ("XX", 3)]) "XY" "XX" 0 (4/5)
        LocusClass.y_nonpar [some ⟨none, some 2, none⟩]
      = Except.ok (some (decide ((4/5 : ℚ) * ((2 : ℕ) : ℚ) ≤ ((2 : ℤ) : ℚ))))) ∧
    (an_adj_eval [] (some [("XY", 2), ("XX", 3)]) "XY" "XX" 0 (4/5)
        LocusClass.other []
      = Except.ok none) :=
  ⟨(get_an_adj_criteria_spec [] [("XY", 2), ("XX", 3)] "XY" "XX" 0 (4/5) 2 3 2
      [some ⟨none, some 2, none⟩] [] rfl rfl rfl).2.2.1,
   (get_an_adj_criteria_spec [] [("XY", 2), ("XX", 3)] "XY" "XX" 0 (4/5) 2 3 2
      [some ⟨none, some 2, none⟩] [] rfl rfl rfl).2.2.2⟩

/-- Claim C10: the dictionary subscripts for the XY and XX keys happen while
the criterion expression is being constructed, so whenever the effective
mapping (caller-supplied or aggregated from the sample metadata) lacks either
key, the call raises `KeyError`, before and regardless of any locus
dispatch. -/
theorem get_an_adj_criteria_keyerror (cols : List String)
    (sbs : Option (List (String × ℕ))) (xy xx : String) (fi : ℕ) (cutoff : ℚ)
    (h : lookupKey (effective_samples_by_sex cols sbs) xy = none ∨
         lookupKey (effective_samples_by_sex cols sbs) xx = none) :
    get_an_adj_criteria cols sbs xy xx fi cutoff = Except.error ("KeyError") := by
  unfold get_an_adj_criteria
  rcases hxy : lookupKey (effective_samples_by_sex cols sbs) xy with _ | n_xy
  · rfl
  · rcases hxx : lookupKey (effective_samples_by_sex cols sbs) xx with _ | n_xx
    · rfl
    · rw [hxy] at h
      rw [hxx] at h
      rcases h with h | h <;> exact absurd h (by simp)

/-- Witness for C10: the mapping is computed by the counter aggregation over
a column of XY-only samples, so the XX key is absent and the call raises. -/
theorem get_an_adj_criteria_keyerror_witness :
    get_an_adj_criteria ["XY", "XY"] none ("XY") ("XX") 0 (4/5)
      = Except.error ("KeyError") :=
  get_an_adj_criteria_keyerror ["XY", "XY"] none ("XY") ("XX") 0 (4/5) (Or.inr rfl)

theorem hlAnd_eq_some_true :
    ∀ a b : Option Bool, (hlAnd a b = some true ↔ a = some true ∧ b = some true) := by
  decide

/-- One VEP consequence entry as consumed by the LoF classification stage of
`default_generate_gene_lof_matrix`.  `most_severe_consequence` holds the
result of the collaborator `add_most_severe_consequence_to_consequence`
(gnomad.utils.vep, opaque to this module), which computes the entry's most
severe consequence term. -/
structure CsqEntry where
  lof : Option String
  lof_flags : Option String
  most_severe_consequence : Option String
deriving DecidableEq

/-- The `pre_loftee=True` classification (summary_stats.py lines 280-283):
membership of the recomputed most severe consequence in the literal LoF
consequence set; a Hail set `contains` applied to a missing value is
missing. -/
def pre_loftee_criteria (lof_csq_set : List String) (x : CsqEntry) : Option Bool :=
  x.most_severe_consequence.map (fun c => lof_csq_set.contains c)

/-- The `pre_loftee=False` classification (summary_stats.py line 285):
`(x.lof == "HC") & hl.is_missing(x.lof_flags)`. -/
def post_loftee_criteria (x : CsqEntry) : Option Bool :=
  hlAnd (hlEqStr x.lof ("HC")) (some x.lof_flags.isNone)

/-- Claim C9: in `pre_loftee=False` mode a consequence entry is classified as
LoF iff its `lof` field equals "HC" and its `lof_flags` field is missing; an
entry whose `lof_flags` is present but empty is not classified as LoF. -/
theorem post_loftee_criteria_iff :
    (∀ x : CsqEntry, post_loftee_criteria x = some true ↔
        x.lof = some ("HC") ∧ x.lof_flags = none) ∧
    post_loftee_criteria ⟨some ("HC"), some (""), none⟩ = some false := by
  constructor
  · intro x
    obtain ⟨lof, fl, msc⟩ := x
    rw [post_loftee_criteria, hlAnd_eq_some_true]
    cases lof <;> cases fl <;>
      simp [hlEqStr]
  · rfl

/-- Classification stage of `default_generate_gene_lof_matrix`
(summary_stats.py lines 279-291).  `criteria` is a Python lambda holding the
selected policy; when `additional_csq_set` is non-empty — its default is
{missense_variant, synonymous_variant} — line 289 executes
`criteria &= lambda x: additional_cats.contains(...)`, which applies the
Python `&` operator to two function objects and raises `TypeError` before
any data is processed (and the operator spelled there is a conjunction, not
the union described in the docstring). -/
def gene_lof_matrix_criteria (pre_loftee : Bool) (lof_csq_set : List String)
    (additional_csq_set : List String) :
    Except String (CsqEntry → Option Bool) :=
  if additional_csq_set.isEmpty then
    Except.ok (if pre_loftee then pre_loftee_criteria lof_csq_set else post_loftee_criteria)
  else
    Except.error ("TypeError: unsupported operand type for &: two function objects")

/-- Claim C3 (code bug): whenever the additional consequence set is
non-empty, the classification stage raises `TypeError` instead of keeping
entries whose most severe consequence lies in the additional set; no OR of
membership tests is ever evaluated. -/
theorem gene_lof_matrix_criteria_raises (pre_loftee : Bool)
    (lof_csq_set additional_csq_set : List String)
    (h : additional_csq_set ≠ []) :
    gene_lof_matrix_criteria pre_loftee lof_csq_set additional_csq_set
      = Except.error ("TypeError: unsupported operand type for &: two function objects") := by
  unfold gene_lof_matrix_criteria
  rw [if_neg (fun hc => h (by simpa [List.isEmpty_iff] using hc))]

/-- Witness for C3: the default parameters (`pre_loftee=False`, the default
LoF consequence set and the default additional set) hit the raising branch. -/
theorem gene_lof_matrix_criteria_raises_witness :
    gene_lof_matrix_criteria false
        ["splice_acceptor_variant", "splice_donor_variant", "stop_gained",
         "frameshift_variant"]
        ["missense_variant", "synonymous_variant"]
      = Except.error ("TypeError: unsupported operand type for &: two function objects") :=
  gene_lof_matrix_criteria_raises false
    ["splice_acceptor_variant", "splice_donor_variant", "stop_gained",
     "frameshift_variant"]
    ["missense_variant", "synonymous_variant"] (by decide)

/-- Case builder `hl.case()` without `missing_false`: a missing condition
makes the whole expression missing; a true condition returns its branch; the
default fires only after every condition evaluated to a defined false. -/
def hlCase : List (Option Bool × String) → String → Option String
  | [], d => some d
  | (none, _) :: _, _ => none
  | (some true, v) :: _, _ => some v
  | (some false, _) :: rest, d => hlCase rest d

/-- The expression-bucket annotation of `default_generate_gene_lof_matrix`
(summary_stats.py lines 303-311), as a function of the matched mean
expression `annotate_tx_expression_data(...).mean_expression` (missing when
`hl.find` matched no row). -/
def tx_expression_bucket (mean_expression : Option ℚ) : Option String :=
  hlCase
    [ (mean_expression.map (fun q => decide (q ≥ 0.9)), "high")
    , (mean_expression.map (fun q => decide (q > 0.1)), "medium")
    , (some mean_expression.isSome, "low") ]
    ("missing")

/-- Claim C7 counterexample: with an undefined mean expression the bucket is
a missing value, not the label "missing" — the first case condition is
missing and `hl.case()` without `missing_false` propagates it, so the
`.default("missing")` branch is unreachable. -/
theorem tx_expression_bucket_counterexample :
    tx_expression_bucket none = none ∧
    tx_expression_bucket none ≠ some ("missing") := by
  exact ⟨rfl, by simp [tx_expression_bucket, hlCase]⟩

/-- Claim C7 (amended): the bucket is "high" when the matched mean expression
is ≥ 0.9, "medium" when it is > 0.1, "low" when it is defined and ≤ 0.1, and
a missing value (never the string "missing") when the mean expression is
undefined. -/
theorem tx_expression_bucket_amended :
    (∀ q : ℚ, tx_expression_bucket (some q) =
      some (if q ≥ 0.9 then ("high") else if q > 0.1 then ("medium") else ("low"))) ∧
    tx_expression_bucket none = none := by
  constructor
  · intro q
    by_cases h1 : q ≥ (0.9 : ℚ) <;> by_cases h2 : q > (0.1 : ℚ) <;>
      simp [tx_expression_bucket, hlCase, h1, h2]
  · rfl

/-- Row-filter stage of `default_generate_gene_lof_matrix` (summary_stats.py
lines 264-271): the PASS criterion `hl.len(mt[filter_field]) == 0`,
optionally conjoined (Hail `&`, Kleene) with the AN-adjacency criterion,
the not-ultra-common criterion (AF < 0.95) and the rare criterion
(AF < 0.05), in source order.  The AN criterion appears as an opaque per-row
predicate parameter (its construction is `get_an_adj_criteria`). -/
def gene_lof_row_filter (an_criteria : VariantRecord → Option Bool)
    (filter_an remove_ultra_common filter_to_rare : Bool) (freq_index : ℕ)
    (r : VariantRecord) : Option Bool :=
  let c0 : Option Bool := some (decide (r.filters.length = 0))
  let c1 : Option Bool := if filter_an then hlAnd c0 (an_criteria r) else c0
  let c2 : Option Bool := if remove_ultra_common
    then hlAnd c1 ((afAt r.freq freq_index).map (fun q => decide (q < 0.95))) else c1
  if filter_to_rare
    then hlAnd c2 ((afAt r.freq freq_index).map (fun q => decide (q < 0.05))) else c2

/-- `mt.filter_rows(filt_criteria)`: rows whose combined criterion is a
defined true are retained; false or missing rows are dropped. -/
def gene_lof_retained_rows (an_criteria : VariantRecord → Option Bool)
    (filter_an remove_ultra_common filter_to_rare : Bool) (freq_index : ℕ)
    (rows : List VariantRecord) : List VariantRecord :=
  rows.filter (fun r => decide (gene_lof_row_filter an_criteria filter_an
    remove_ultra_common filter_to_rare freq_index r = some true))

theorem gene_lof_row_filter_rare (an_criteria : VariantRecord → Option Bool)
    (fa ruc : Bool) (fi : ℕ) (r : VariantRecord) :
    gene_lof_row_filter an_criteria fa ruc true fi r =
      hlAnd (gene_lof_row_filter an_criteria fa ruc false fi r)
        ((afAt r.freq fi).map (fun q => decide (q < 0.05))) := rfl

/-- Claim C8 counterexample: a one-row input whose only row passes the PASS
filter and is rare (AF = 0.01); the rows retained with `filter_to_rare=True`
are exactly the rows retained with `filter_to_rare=False`, so the former set
is not a strict subset of the latter. -/
theorem filter_to_rare_not_strict :
    gene_lof_retained_rows (fun _ => none) false false true 0
        [⟨[], [some ⟨some 5, some 100, some 0.01⟩], false, true, none, none⟩]
      = gene_lof_retained_rows (fun _ => none) false false false 0
        [⟨[], [some ⟨some 5, some 100, some 0.01⟩], false, true, none, none⟩] ∧
    (∀ r ∈ gene_lof_retained_rows (fun _ => none) false false false 0
        [⟨[], [some ⟨some 5, some 100, some 0.01⟩], false, true, none, none⟩],
      r ∈ gene_lof_retained_rows (fun _ => none) false false true 0
        [⟨[], [some ⟨some 5, some 100, some 0.01⟩], false, true, none, none⟩]) := by
  have hq : decide ((0.01 : ℚ) < 0.05) = true := by norm_num
  have he : gene_lof_retained_rows (fun _ => none) false false true 0
        [⟨[], [some ⟨some 5, some 100, some 0.01⟩], false, true, none, none⟩]
      = gene_lof_retained_rows (fun _ => none) false false false 0
        [⟨[], [some ⟨some 5, some 100, some 0.01⟩], false, true, none, none⟩] := by
    simp [gene_lof_retained_rows, gene_lof_row_filter, afAt, freqAt, hlAnd,
      List.filter, hq]
  exact ⟨he, fun r hr => he.symm ▸ hr⟩

/-- Claim C8 (amended): for every AF-annotated input and otherwise identical
parameters, the rows retained with `filter_to_rare=True` are a subset of the
rows retained with `filter_to_rare=False`; the inclusion is strict exactly
when some row passing the other criteria fails the rare condition (AF ≥ 0.05
or missing AF), and, as the counterexample shows, it is not strict in
general. -/
theorem filter_to_rare_subset (an_criteria : VariantRecord → Option Bool)
    (fa ruc : Bool) (fi : ℕ) (rows : List VariantRecord) :
    (∀ r ∈ gene_lof_retained_rows an_criteria fa ruc true fi rows,
        r ∈ gene_lof_retained_rows an_criteria fa ruc false fi rows) ∧
    (∀ r ∈ rows, gene_lof_row_filter an_criteria fa ruc false fi r = some true →
      ((afAt r.freq fi).map (fun q => decide (q < 0.05))) ≠ some true →
        r ∈ gene_lof_retained_rows an_criteria fa ruc false fi rows ∧
          r ∉ gene_lof_retained_rows an_criteria fa ruc true fi rows) := by
  constructor
  · intro r hr
    rw [gene_lof_retained_rows, List.mem_filter] at hr ⊢
    refine ⟨hr.1, ?_⟩
    have h := of_decide_eq_true hr.2
    rw [gene_lof_row_filter_rare] at h
    exact decide_eq_true ((hlAnd_eq_some_true _ _).mp h).1
  · intro r hr hpass hrare
    constructor
    · rw [gene_lof_retained_rows, List.mem_filter]
      exact ⟨hr, decide_eq_true hpass⟩
    · rw [gene_lof_retained_rows, List.mem_filter]
      rintro ⟨-, habs⟩
      have h := of_decide_eq_true habs
      rw [gene_lof_row_filter_rare] at h
      exact hrare ((hlAnd_eq_some_true _ _).mp h).2

/-- Witness for the amended C8: a passing row with AF = 1/2 is retained
without the rare filter and dropped by it. -/
theorem filter_to_rare_subset_witness :
    (⟨[], [some ⟨some 5, some 100, some 0.5⟩], false, true, none, none⟩ : VariantRecord)
        ∈ gene_lof_retained_rows (fun _ => none) false false false 0
          [⟨[], [some ⟨some 5, some 100, some 0.5⟩], false, true, none, none⟩] ∧
    (⟨[], [some ⟨some 5, some 100, some 0.5⟩], false, true, none, none⟩ : VariantRecord)
        ∉ gene_lof_retained_rows (fun _ => none) false false true 0
          [⟨[], [some ⟨some 5, some 100, some 0.5⟩], false, true, none, none⟩] :=
  (filter_to_rare_subset (fun _ => none) false false 0
      [⟨[], [some ⟨some 5, some 100, some 0.5⟩], false, true, none, none⟩]).2
    ⟨[], [some ⟨some 5, some 100, some 0.5⟩], false, true, none, none⟩
    (List.mem_cons_self _ _) rfl
    (by norm_num [afAt, freqAt])
